import Mathlib

/-!
Shallow embedding of the `wasi-services-management` host runtime:
the checked monetary arithmetic (`src/money.rs`), the billed operation
`order_hosting`, the host-capability resolution `resolve_or_construct_import`
and the instantiation step (`src/main.rs`).

Machine integers are modelled as `Int` (for `i64`/`i32` values) and `Nat`
(for `u32`/`usize` values), with the checked operations testing the
representable range explicitly and the `as` casts reducing modulo `2^32`.
-/

namespace WasiSM

/-- The smallest value of the Rust type `i64`. -/
def i64Min : Int := -(2 ^ 63)

/-- The largest value of the Rust type `i64`. -/
def i64Max : Int := 2 ^ 63 - 1

/-- Checked `i64` subtraction (`checked_sub`): the mathematical difference when it is representable
in `i64`, `none` otherwise. -/
def checked_sub_i64 (a b : Int) : Option Int :=
  if i64Min ≤ a - b ∧ a - b ≤ i64Max then some (a - b) else none

/-- Checked `i64` multiplication (`checked_mul`): the mathematical product when it is representable
in `i64`, `none` otherwise. -/
def checked_mul_i64 (a b : Int) : Option Int :=
  if i64Min ≤ a * b ∧ a * b ≤ i64Max then some (a * b) else none

/-- The `days as u32` cast of an `i32` value: reinterpret the twos-complement
bits, i.e. reduce modulo `2^32` into `[0, 2^32)`. -/
def i32_as_u32 (d : Int) : Nat := (d % 2 ^ 32).toNat

/-- The `ret as i32` cast of a `usize` value: truncate to 32 bits and
reinterpret as a signed value. -/
def usize_as_i32 (n : Nat) : Int :=
  if n % 2 ^ 32 < 2 ^ 31 then (n % 2 ^ 32 : Int) else (n % 2 ^ 32 : Int) - 2 ^ 32

/-- The error enumeration of `src/main.rs`, in declaration order. -/
inductive Error where
  | InvalidArgumentValue
  | TotalCostExceededMaxValue
  | NegativeBalance
  | BalanceWouldBecomeNegative
  | BalanceWouldUnderflow
  | UnknownImport
deriving DecidableEq, Fintype, Repr

/-- The struct `MoneyUnit` from `src/money.rs`: a wrapper around an `i64` number of
cents. -/
structure MoneyUnit where
  cents : Int
deriving DecidableEq, Repr

/-- Constructor `MoneyUnit::from_cents`. -/
def MoneyUnit.from_cents (v : Int) : MoneyUnit := ⟨v⟩

/-- Accessor `MoneyUnit::to_cents_as_i64`. -/
def MoneyUnit.to_cents_as_i64 (m : MoneyUnit) : Int := m.cents

/-- The `impl Mul<i32> for MoneyUnit`: `self.0.checked_mul(rhs as i64)`.
The `i32 as i64` cast is lossless, so `rhs` enters the checked multiply
unchanged. -/
def MoneyUnit.mul_i32 (m : MoneyUnit) (rhs : Int) : Option MoneyUnit :=
  (checked_mul_i64 m.cents rhs).map MoneyUnit.from_cents

/-- The `impl Sub for MoneyUnit` from `src/money.rs`: guarded subtraction with
three ordered checks. -/
def MoneyUnit.sub (a b : MoneyUnit) : Except Error MoneyUnit :=
  if a.cents < 0 then .error .NegativeBalance
  else
    match checked_sub_i64 a.cents b.cents with
    | none => .error .BalanceWouldUnderflow
    | some res => if res < 0 then .error .BalanceWouldBecomeNegative else .ok ⟨res⟩

/-- The struct `UserData` from `src/main.rs`: a balance and a `u32` count of hosting
days. -/
structure UserData where
  balance : MoneyUnit
  hosting_days_left : Nat
deriving DecidableEq, Repr

/-- The `PRICE_PER_DAY` constant of `order_hosting`. -/
def PRICE_PER_DAY : MoneyUnit := MoneyUnit.from_cents 100

/-- The function `order_hosting` from `src/main.rs`. The `&mut UserData` parameter is
modelled by returning the updated record on success; on error the record is
untouched, which the caller-side model (`order_hosting_import`) reflects by
keeping the original state. The `u32` addition `hosting_days_left += days as
u32` is modelled with release-mode wrapping semantics (reduction modulo
`2^32`). -/
def order_hosting (user_data : UserData) (days : Int) : Except Error UserData :=
  if days ≤ 0 then .error .InvalidArgumentValue
  else
    match PRICE_PER_DAY.mul_i32 days with
    | none => .error .TotalCostExceededMaxValue
    | some total_cost =>
      match user_data.balance.sub total_cost with
      | .error e => .error e
      | .ok newBalance =>
        .ok { balance := newBalance,
              hosting_days_left :=
                (user_data.hosting_days_left + i32_as_u32 days) % 2 ^ 32 }

/-- The `Error::iter()` sequence of the `EnumIter` derive: the variants in declaration
order. -/
def Error.iterList : List Error :=
  [.InvalidArgumentValue, .TotalCostExceededMaxValue, .NegativeBalance,
   .BalanceWouldBecomeNegative, .BalanceWouldUnderflow, .UnknownImport]

/-- The error-code search in the synthesized `order_hosting` capability:
`Error::iter().map(discriminant).enumerate().find_map(|(i, d)| ...)`,
yielding `i + 1` for the first variant with the same discriminant.
Discriminant equality on this fieldless enum is plain equality. -/
def error_code (e : Error) : Option Nat :=
  Error.iterList.enum.findSome? fun p => if p.2 = e then some (p.1 + 1) else none

/-- The guest-facing behaviour of the synthesized `order_hosting` capability
on one user record: `0` on success together with the updated record, the
mapped error code and the untouched record on a business error, `none` for
the `unreachable!()` branch. -/
def order_hosting_guest_ret (ud : UserData) (days : Int) : Option (Int × UserData) :=
  match order_hosting ud days with
  | .ok ud' => some (usize_as_i32 0, ud')
  | .error e => (error_code e).map fun c => (usize_as_i32 c, ud)

/-- The type `UserId` from `src/main.rs` (a `usize`). -/
abbrev UserId := Nat

/-- The `user_data` map of `State`: `HashMap<UserId, UserData>` modelled by
its lookup function. -/
def StateMap : Type := UserId → Option UserData

/-- Insertion into the user-data map. -/
def StateMap.update (s : StateMap) (u : UserId) (d : UserData) : StateMap :=
  fun v => if v = u then some d else s v

/-- An import request: the `(module, name)` part of `wasmtime::ImportType`. -/
structure ImportType where
  module : String
  name : String
deriving DecidableEq

/-- A resolved import: either a synthesized zero-argument host function
(`i64` result), a synthesized one-argument host function (`i32` argument and
result, possibly updating host state), or an extern produced by the generic
linker. `none` results of the capability bodies model host-side panics. -/
inductive Extern where
  | hostFunc0 (f : StateMap → Option Int)
  | hostFunc1 (f : StateMap → Int → Option (Int × StateMap))
  | generic (g : Nat)

/-- Body of the synthesized `"balance"` capability:
`caller.data().user_data[&user].balance.to_cents_as_i64()`; indexing a
missing user panics, modelled as `none`. -/
def balance_import (s : StateMap) (user : UserId) : Option Int :=
  (s user).map fun ud => ud.balance.to_cents_as_i64

/-- Body of the synthesized `"order_hosting"` capability:
`get_mut(&user).unwrap()` (panic as `none` when the user is absent), then
`order_hosting`, then translation of the outcome to an `i32`; on error the
state map is untouched. -/
def order_hosting_import (s : StateMap) (user : UserId) (days : Int) :
    Option (Int × StateMap) :=
  match s user with
  | none => none
  | some ud =>
    match order_hosting ud days with
    | .ok ud' => some (usize_as_i32 0, s.update user ud')
    | .error e => (error_code e).map fun c => (usize_as_i32 c, s)

/-- The function `resolve_or_construct_import` from `src/main.rs`: non-`"host"` modules
are delegated to the linker; inside `"host"`, the names `"balance"` and
`"order_hosting"` synthesize capabilities bound to `user`, every other name
is unresolved. -/
def resolve_or_construct_import (linker : ImportType → Option Extern)
    (imp : ImportType) (user : UserId) : Option Extern :=
  if imp.module ≠ "host" then linker imp
  else if imp.name = "balance" then
    some (.hostFunc0 fun s => balance_import s user)
  else if imp.name = "order_hosting" then
    some (.hostFunc1 fun s days => order_hosting_import s user days)
  else none

/-- The function `instantiate_services_management_module` from `src/main.rs`: resolve
every declared import in order, collect into an `Option` of the extern list,
fail with `UnknownImport` when any single one is unresolved. The produced
instance is represented by its resolved import list. -/
def instantiate_services_management_module (linker : ImportType → Option Extern)
    (imports : List ImportType) (user : UserId) : Except Error (List Extern) :=
  match imports.mapM (fun i => resolve_or_construct_import linker i user) with
  | none => .error .UnknownImport
  | some exts => .ok exts

deriving instance DecidableEq for Except

/-! ## Specification-side definitions (for refinement claims) -/

/-- Modelled from the spec: the wording of `subtract` (§4.1): three ordered
checks — negative minuend, representation overflow of the difference,
negative mathematical result — then the difference. Stated over the
mathematical values, to be compared with `MoneyUnit.sub`. -/
def subtract_spec (a b : MoneyUnit) : Except Error MoneyUnit :=
  if a.cents < 0 then .error .NegativeBalance
  else if a.cents - b.cents < i64Min ∨ i64Max < a.cents - b.cents then
    .error .BalanceWouldUnderflow
  else if a.cents - b.cents < 0 then .error .BalanceWouldBecomeNegative
  else .ok ⟨a.cents - b.cents⟩

/-- The pinned error-code table the spec demands (§4.3): 1-based position in
declaration order. -/
def error_code_spec (e : Error) : Nat :=
  match e with
  | .InvalidArgumentValue => 1
  | .TotalCostExceededMaxValue => 2
  | .NegativeBalance => 3
  | .BalanceWouldBecomeNegative => 4
  | .BalanceWouldUnderflow => 5
  | .UnknownImport => 6

/-! ## Helper lemmas -/

/-- The guarded subtraction `MoneyUnit.sub` only ever produces the three subtraction error kinds. -/
theorem sub_error_cases (a b : MoneyUnit) (e : Error)
    (h : MoneyUnit.sub a b = .error e) :
    e = .NegativeBalance ∨ e = .BalanceWouldUnderflow ∨
      e = .BalanceWouldBecomeNegative := by
  unfold MoneyUnit.sub at h
  split at h
  · simp_all
  · split at h
    · simp_all
    · split at h <;> simp_all

/-- Every error produced by `order_hosting` is one of the five business error
kinds; in particular it is never `UnknownImport`. -/
theorem order_hosting_error_cases (ud : UserData) (days : Int) (e : Error)
    (h : order_hosting ud days = .error e) :
    e = .InvalidArgumentValue ∨ e = .TotalCostExceededMaxValue ∨
      e = .NegativeBalance ∨ e = .BalanceWouldUnderflow ∨
      e = .BalanceWouldBecomeNegative := by
  unfold order_hosting at h
  split at h
  · simp_all
  · split at h
    · simp_all
    · split at h
      · rename_i heq
        have := sub_error_cases _ _ _ heq
        simp_all
      · simp_all

/-- The positive in-range multiplication of the price by an `i32` number of
days never overflows `i64`. -/
theorem price_mul_in_range (days : Int) (h1 : -(2 ^ 31) ≤ days)
    (h2 : days < 2 ^ 31) :
    PRICE_PER_DAY.mul_i32 days = some ⟨100 * days⟩ := by
  unfold PRICE_PER_DAY MoneyUnit.mul_i32 checked_mul_i64 MoneyUnit.from_cents
  rw [if_pos]
  · rfl
  · unfold i64Min i64Max
    norm_num
    omega

/-- Projection of the `MoneyUnit` constructor. -/
@[simp]
theorem MoneyUnit.cents_mk (v : Int) : (MoneyUnit.mk v).cents = v := rfl

/-- Guarded subtraction reports `BalanceWouldBecomeNegative` when the
minuend is non-negative but smaller than an in-range non-negative
subtrahend. -/
theorem sub_becomes_negative (a b : MoneyUnit) (h0 : 0 ≤ a.cents)
    (h1 : a.cents < b.cents) (h2 : b.cents ≤ i64Max) (h3 : 0 ≤ b.cents) :
    MoneyUnit.sub a b = .error .BalanceWouldBecomeNegative := by
  unfold MoneyUnit.sub checked_sub_i64
  unfold i64Max at h2
  rw [if_neg (by omega), if_pos (by unfold i64Min i64Max; omega)]
  simp [show a.cents - b.cents < 0 by omega]

/-- Successful guarded subtraction: a non-negative in-range minuend and a
subtrahend between zero and the minuend. -/
theorem sub_ok (a b : MoneyUnit) (h0 : 0 ≤ a.cents) (h1 : b.cents ≤ a.cents)
    (h2 : a.cents ≤ i64Max) (h3 : 0 ≤ b.cents) :
    MoneyUnit.sub a b = .ok ⟨a.cents - b.cents⟩ := by
  unfold MoneyUnit.sub checked_sub_i64
  unfold i64Max at h2
  rw [if_neg (by omega), if_pos (by unfold i64Min i64Max; omega)]
  simp [show ¬ a.cents - b.cents < 0 by omega]

/-- The `as u32` cast is the identity on non-negative `i32` values. -/
theorem i32_as_u32_of_pos (d : Int) (h1 : 0 ≤ d) (h2 : d < 2 ^ 31) :
    i32_as_u32 d = d.toNat := by
  unfold i32_as_u32
  omega

/-! ## Claim theorems -/

/-- C4: for every pair of Money values `a` and `b`, `subtract` applies the
three checks in the fixed order of the spec — negative minuend first
(`NegativeBalance`), then `i64` overflow of the difference
(`BalanceWouldUnderflow`), then negativity of the mathematical result
(`BalanceWouldBecomeNegative`) — and otherwise returns `a - b`. -/
theorem sub_matches_ordered_checks (a b : MoneyUnit) :
    MoneyUnit.sub a b = subtract_spec a b := by
  unfold MoneyUnit.sub subtract_spec checked_sub_i64
  split_ifs with h0 h1 h2 h3 h4 <;> first | rfl | omega | simp [h3]

/-- C3: for every `i32 days ≤ 0` and every `UserData`, `order_hosting`
returns `InvalidArgumentValue`, and the synthesized capability hands the
guest code 1 with the user record untouched. -/
theorem order_hosting_nonpositive_days (ud : UserData) (days : Int)
    (_h1 : -(2 ^ 31) ≤ days) (hd : days ≤ 0) :
    order_hosting ud days = .error .InvalidArgumentValue ∧
      order_hosting_guest_ret ud days = some (1, ud) := by
  have h : order_hosting ud days = .error .InvalidArgumentValue := by
    unfold order_hosting
    rw [if_pos hd]
  refine ⟨h, ?_⟩
  unfold order_hosting_guest_ret
  rw [h]
  rfl

/-- Witness for C3 at `days = -5`, end-to-end scenario B of the spec. -/
theorem order_hosting_nonpositive_days_witness :
    order_hosting ⟨⟨100000⟩, 0⟩ (-5) = .error .InvalidArgumentValue ∧
      order_hosting_guest_ret ⟨⟨100000⟩, 0⟩ (-5) = some (1, ⟨⟨100000⟩, 0⟩) :=
  order_hosting_nonpositive_days ⟨⟨100000⟩, 0⟩ (-5) (by norm_num) (by norm_num)

/-- C1 as stated is false: the entitlement counter is a `u32`, and at
`hosting_days_left = 2^32 - 1`, `days = 1` with sufficient balance (100
cents) the call succeeds but the counter wraps to `0` instead of increasing
by `days`. -/
theorem order_hosting_success_counterexample :
    (0 : Int) < 1 ∧
      100 * 1 ≤ (MoneyUnit.mk 100).cents ∧
      order_hosting ⟨⟨100⟩, 2 ^ 32 - 1⟩ 1 = .ok ⟨⟨0⟩, 0⟩ ∧
      (0 : Nat) ≠ (2 ^ 32 - 1) + 1 := by
  refine ⟨by norm_num, by norm_num, by decide, by norm_num⟩

/-- C1 (amended): for every `i32 days > 0` and every `UserData` whose
balance is at least `100 * days` cents, provided the `u32` entitlement
counter does not overflow (`hosting_days_left + days < 2^32`),
`order_hosting` succeeds, the balance decreases by exactly `100 * days`
cents and `hosting_days_left` increases by exactly `days`; the synthesized
capability hands the guest code 0 together with the updated record. -/
theorem order_hosting_success (ud : UserData) (days : Int)
    (h1 : 0 < days) (h2 : days < 2 ^ 31)
    (hb : 100 * days ≤ ud.balance.cents) (hbmax : ud.balance.cents ≤ i64Max)
    (hdl : ud.hosting_days_left + days.toNat < 2 ^ 32) :
    order_hosting ud days =
      .ok ⟨⟨ud.balance.cents - 100 * days⟩,
           ud.hosting_days_left + days.toNat⟩ ∧
      order_hosting_guest_ret ud days =
        some (0, ⟨⟨ud.balance.cents - 100 * days⟩,
                  ud.hosting_days_left + days.toNat⟩) := by
  have hok : order_hosting ud days =
      .ok ⟨⟨ud.balance.cents - 100 * days⟩,
           ud.hosting_days_left + days.toNat⟩ := by
    unfold order_hosting
    rw [if_neg (by omega), price_mul_in_range days (by omega) h2]
    dsimp only
    rw [sub_ok ud.balance ⟨100 * days⟩ (by omega) (by simp; omega) hbmax
      (by simp; omega)]
    dsimp only
    rw [i32_as_u32_of_pos days (by omega) h2, Nat.mod_eq_of_lt hdl]
  refine ⟨hok, ?_⟩
  unfold order_hosting_guest_ret
  rw [hok]
  norm_num [usize_as_i32]

/-- Witness for the amended C1 theorem: end-to-end scenario A of the spec
(initial balance 100000 cents, 30 days ordered at 100 cents/day). -/
theorem order_hosting_success_witness :
    order_hosting ⟨⟨100000⟩, 0⟩ 30 = .ok ⟨⟨97000⟩, 30⟩ ∧
      order_hosting_guest_ret ⟨⟨100000⟩, 0⟩ 30 = some (0, ⟨⟨97000⟩, 30⟩) := by
  have h := order_hosting_success ⟨⟨100000⟩, 0⟩ 30 (by norm_num) (by norm_num)
    (by norm_num) (by unfold i64Max; norm_num) (by norm_num)
  simpa using h

/-- C2 as stated is false: at `balance = -1` (insufficient for one day), the
already-negative minuend is reported first, so `order_hosting` returns
`NegativeBalance`, not `BalanceWouldBecomeNegative`. -/
theorem order_hosting_insufficient_counterexample :
    (0 : Int) < 1 ∧
      (MoneyUnit.mk (-1)).cents < 100 * 1 ∧
      order_hosting ⟨⟨-1⟩, 0⟩ 1 ≠ .error .BalanceWouldBecomeNegative ∧
      order_hosting ⟨⟨-1⟩, 0⟩ 1 = .error .NegativeBalance := by
  refine ⟨by norm_num, by norm_num, by decide, by decide⟩

/-- C2 (amended): for every `i32 days > 0` and every `UserData` whose
balance is non-negative but insufficient (`0 ≤ balance < 100 * days`),
`order_hosting` returns `BalanceWouldBecomeNegative` and the synthesized
capability hands the guest code 4 with the user record untouched. -/
theorem order_hosting_insufficient (ud : UserData) (days : Int)
    (h1 : 0 < days) (h2 : days < 2 ^ 31)
    (hb0 : 0 ≤ ud.balance.cents) (hb : ud.balance.cents < 100 * days) :
    order_hosting ud days = .error .BalanceWouldBecomeNegative ∧
      order_hosting_guest_ret ud days = some (4, ud) := by
  have herr : order_hosting ud days = .error .BalanceWouldBecomeNegative := by
    unfold order_hosting
    rw [if_neg (by omega), price_mul_in_range days (by omega) h2]
    dsimp only
    rw [sub_becomes_negative ud.balance ⟨100 * days⟩ hb0 (by simp; omega)
      (by simp; unfold i64Max; omega) (by simp; omega)]
  refine ⟨herr, ?_⟩
  unfold order_hosting_guest_ret
  rw [herr]
  rfl

/-- Witness for the amended C2 theorem: end-to-end scenario C of the spec
(balance 100 cents, 5 days ordered, cost 500). -/
theorem order_hosting_insufficient_witness :
    order_hosting ⟨⟨100⟩, 0⟩ 5 = .error .BalanceWouldBecomeNegative ∧
      order_hosting_guest_ret ⟨⟨100⟩, 0⟩ 5 = some (4, ⟨⟨100⟩, 0⟩) :=
  order_hosting_insufficient ⟨⟨100⟩, 0⟩ 5 (by norm_num) (by norm_num)
    (by norm_num) (by norm_num)

/-- C8: whenever the checked multiply `100 * days` with `days > 0` overflows
the `i64` monetary range, `order_hosting` returns
`TotalCostExceededMaxValue` and the synthesized capability hands the guest
code 2 with the user record untouched. (For `i32`-range `days` the premise
is unsatisfiable — see the C9 theorem — so the guard is stated on the
integer argument of the embedded function.) -/
theorem order_hosting_cost_overflow (ud : UserData) (days : Int)
    (h1 : 0 < days) (hov : i64Max < 100 * days) :
    order_hosting ud days = .error .TotalCostExceededMaxValue ∧
      order_hosting_guest_ret ud days = some (2, ud) := by
  have herr : order_hosting ud days = .error .TotalCostExceededMaxValue := by
    unfold order_hosting
    rw [if_neg (by omega)]
    have hmul : PRICE_PER_DAY.mul_i32 days = none := by
      unfold PRICE_PER_DAY MoneyUnit.mul_i32 checked_mul_i64 MoneyUnit.from_cents
      simp only [MoneyUnit.cents_mk]
      rw [if_neg (by unfold i64Max at hov; unfold i64Min i64Max; omega)]
      rfl
    rw [hmul]
  refine ⟨herr, ?_⟩
  unfold order_hosting_guest_ret
  rw [herr]
  rfl

/-- Witness for C8 at `days = 2^62`, where the total cost overflows `i64`. -/
theorem order_hosting_cost_overflow_witness :
    order_hosting ⟨⟨100000⟩, 0⟩ (2 ^ 62) = .error .TotalCostExceededMaxValue ∧
      order_hosting_guest_ret ⟨⟨100000⟩, 0⟩ (2 ^ 62) = some (2, ⟨⟨100000⟩, 0⟩) :=
  order_hosting_cost_overflow ⟨⟨100000⟩, 0⟩ (2 ^ 62) (by norm_num)
    (by unfold i64Max; norm_num)

/-- C9: for every `i32`-range `days`, the checked multiply `100 * days`
cannot overflow `i64`, so `order_hosting` never returns
`TotalCostExceededMaxValue`. -/
theorem order_hosting_never_cost_overflow (ud : UserData) (days : Int)
    (h1 : -(2 ^ 31) ≤ days) (h2 : days < 2 ^ 31) :
    order_hosting ud days ≠ .error .TotalCostExceededMaxValue := by
  intro h
  have := order_hosting_error_cases ud days _ h
  unfold order_hosting at h
  split at h
  · simp_all
  · rw [price_mul_in_range days h1 h2] at h
    simp only [] at h
    split at h
    · rename_i heq
      have := sub_error_cases _ _ _ heq
      simp_all
    · simp_all

/-- Witness for C9 at a concrete in-range input. -/
theorem order_hosting_never_cost_overflow_witness :
    order_hosting ⟨⟨0⟩, 0⟩ 2147483647 ≠ .error .TotalCostExceededMaxValue :=
  order_hosting_never_cost_overflow ⟨⟨0⟩, 0⟩ 2147483647 (by norm_num) (by norm_num)

/-- The capability-boundary error-code search agrees with the pinned
1-based-position table on every error kind. -/
theorem error_code_eval (e : Error) : error_code e = some (error_code_spec e) := by
  cases e <;> rfl

/-- C5: the error-kind-to-code mapping computed at the `order_hosting`
capability boundary is the 1-based declaration position
(`InvalidArgumentValue = 1`, …, `UnknownImport = 6`), a bijection onto
`{1, …, 6}`; success is always code 0, and the same kind always yields the
same code (the translation is a function of the outcome alone). -/
theorem error_code_mapping :
    (∀ e : Error, error_code e = some (error_code_spec e)) ∧
      error_code_spec .InvalidArgumentValue = 1 ∧
      error_code_spec .TotalCostExceededMaxValue = 2 ∧
      error_code_spec .NegativeBalance = 3 ∧
      error_code_spec .BalanceWouldBecomeNegative = 4 ∧
      error_code_spec .BalanceWouldUnderflow = 5 ∧
      error_code_spec .UnknownImport = 6 ∧
      Function.Injective error_code_spec ∧
      (∀ e : Error, 1 ≤ error_code_spec e ∧ error_code_spec e ≤ 6) ∧
      (∀ (ud : UserData) (days : Int),
        order_hosting_guest_ret ud days =
          match order_hosting ud days with
          | .ok ud' => some (0, ud')
          | .error e => some ((error_code_spec e : Int), ud)) := by
  refine ⟨error_code_eval, rfl, rfl, rfl, rfl, rfl, rfl, by decide, by decide, ?_⟩
  intro ud days
  unfold order_hosting_guest_ret
  cases h : order_hosting ud days with
  | ok ud' => rfl
  | error e =>
    dsimp only
    rw [error_code_eval e]
    cases e <;> rfl

/-- Witness for C5: the concrete run of scenario A of the spec yields code 0
through the capability translation. -/
theorem error_code_mapping_witness :
    order_hosting_guest_ret ⟨⟨100000⟩, 0⟩ 30 = some (0, ⟨⟨97000⟩, 30⟩) := by
  have h := error_code_mapping.2.2.2.2.2.2.2.2.2 ⟨⟨100000⟩, 0⟩ 30
  rw [h]
  rfl

/-- C10: the discriminant search of the synthesized `order_hosting`
capability always finds a code for every outcome `order_hosting` can
produce (the `unreachable!()` branch is never taken), and the `i32`
delivered to the guest is always between 0 and 5: code 6 (`UnknownImport`)
never crosses the guest-facing channel. -/
theorem guest_code_range (ud : UserData) (days : Int) :
    ∃ code ud', order_hosting_guest_ret ud days = some (code, ud') ∧
      0 ≤ code ∧ code ≤ 5 := by
  cases h : order_hosting ud days with
  | ok ud' =>
    refine ⟨0, ud', ?_, by norm_num, by norm_num⟩
    unfold order_hosting_guest_ret
    rw [h]
    rfl
  | error e =>
    have hcases := order_hosting_error_cases ud days e h
    refine ⟨(error_code_spec e : Int), ud, ?_, ?_, ?_⟩
    · unfold order_hosting_guest_ret
      rw [h]
      dsimp only
      rcases hcases with h' | h' | h' | h' | h' <;> subst h' <;> rfl
    · rcases hcases with h' | h' | h' | h' | h' <;> subst h' <;> norm_num
    · rcases hcases with h' | h' | h' | h' | h' <;> subst h' <;> norm_num [error_code_spec]

/-- C6: the import-resolution decision policy. Outside the reserved
`"host"` namespace the answer of the generic linker (including absence) is
authoritative; inside it, `"balance"` synthesizes the zero-argument
balance-reading capability, `"order_hosting"` synthesizes the one-argument
billed-operation capability translating the outcome to `0` or the mapped
code, and any other name is unresolved without the linker being
consulted. -/
theorem resolve_import_policy :
    (∀ (linker : ImportType → Option Extern) (imp : ImportType) (user : UserId),
        imp.module ≠ "host" →
        resolve_or_construct_import linker imp user = linker imp) ∧
      (∀ (linker : ImportType → Option Extern) (user : UserId),
        resolve_or_construct_import linker ⟨"host", "balance"⟩ user =
          some (.hostFunc0 fun s => balance_import s user)) ∧
      (∀ (s : StateMap) (user : UserId) (ud : UserData), s user = some ud →
        balance_import s user = some ud.balance.to_cents_as_i64) ∧
      (∀ (linker : ImportType → Option Extern) (user : UserId),
        resolve_or_construct_import linker ⟨"host", "order_hosting"⟩ user =
          some (.hostFunc1 fun s days => order_hosting_import s user days)) ∧
      (∀ (s : StateMap) (user : UserId) (ud : UserData) (days : Int),
        s user = some ud →
        order_hosting_import s user days =
          match order_hosting ud days with
          | .ok ud' => some (0, s.update user ud')
          | .error e => some ((error_code_spec e : Int), s)) ∧
      (∀ (linker : ImportType → Option Extern) (user : UserId) (name : String),
        name ≠ "balance" → name ≠ "order_hosting" →
        resolve_or_construct_import linker ⟨"host", name⟩ user = none) := by
  refine ⟨?_, ?_, ?_, ?_, ?_, ?_⟩
  · intro linker imp user h
    unfold resolve_or_construct_import
    rw [if_pos h]
  · intro linker user
    rfl
  · intro s user ud h
    unfold balance_import
    rw [h]
    rfl
  · intro linker user
    rfl
  · intro s user ud days h
    unfold order_hosting_import
    rw [h]
    dsimp only
    cases hh : order_hosting ud days with
    | ok ud' =>
      dsimp only
      rfl
    | error e =>
      dsimp only
      rw [error_code_eval e]
      cases e <;> rfl
  · intro linker user name h1 h2
    unfold resolve_or_construct_import
    rw [if_neg (by simp), if_neg h1, if_neg h2]

/-- Witness for C6: a non-reserved import follows the (empty) linker, an
unknown reserved name is unresolved even though the linker is empty, and
the balance capability reads the balance of the bound user. -/
theorem resolve_import_policy_witness :
    resolve_or_construct_import (fun _ => none)
        ⟨"wasi_snapshot_preview1", "fd_write"⟩ 0 = none ∧
      resolve_or_construct_import (fun _ => none) ⟨"host", "bogus"⟩ 0 = none ∧
      balance_import (fun u => if u = 0 then some ⟨⟨100000⟩, 0⟩ else none) 0 =
        some 100000 := by
  refine ⟨?_, ?_, ?_⟩
  · have h := resolve_import_policy.1 (fun _ => none)
      ⟨"wasi_snapshot_preview1", "fd_write"⟩ 0 (by decide)
    simpa using h
  · exact resolve_import_policy.2.2.2.2.2 (fun _ => none) 0 "bogus"
      (by decide) (by decide)
  · have h := resolve_import_policy.2.2.1
      (fun u => if u = 0 then some ⟨⟨100000⟩, 0⟩ else none) 0 ⟨⟨100000⟩, 0⟩ rfl
    simpa using h

/-- C7: if any single declared import is unresolved, instantiation fails
with `UnknownImport` and no instance is produced, regardless of how many
other imports resolve. -/
theorem instantiation_fails_on_unresolved (linker : ImportType → Option Extern)
    (imports : List ImportType) (user : UserId) (imp : ImportType)
    (hmem : imp ∈ imports)
    (hun : resolve_or_construct_import linker imp user = none) :
    instantiate_services_management_module linker imports user =
      .error .UnknownImport := by
  unfold instantiate_services_management_module
  have hnone :
      imports.mapM (fun i => resolve_or_construct_import linker i user) = none := by
    induction imports with
    | nil => cases hmem
    | cons a l ih =>
      rw [List.mapM_cons]
      rcases List.mem_cons.mp hmem with h | h
      · subst h
        rw [hun]
        rfl
      · cases ha : resolve_or_construct_import linker a user with
        | none => rfl
        | some v =>
          rw [ih h]
          rfl
  rw [hnone]

/-- Witness for C7, scenario D of the spec: the reserved-namespace import
`"bogus"` is unresolved, so instantiation fails even though the sibling
`"balance"` import resolves. -/
theorem instantiation_fails_on_unresolved_witness :
    instantiate_services_management_module (fun _ => none)
      [⟨"host", "balance"⟩, ⟨"host", "bogus"⟩] 0 = .error .UnknownImport :=
  instantiation_fails_on_unresolved (fun _ => none)
    [⟨"host", "balance"⟩, ⟨"host", "bogus"⟩] 0 ⟨"host", "bogus"⟩
    (by decide) rfl

end WasiSM
